import Mathlib

/-!
A shallow embedding of the name-resolution and overload-matching core of
libadalang's `ada/language/ast.py`: the `SubprogramSpec` matching properties
(`typed_param_list`, `nb_min_params`, `nb_max_params`, `match_param_list`,
`is_matching_param_list`, `match_param_assoc`), the `BaseId` / `Prefix`
resolution properties (`name`, `scope`, `designated_env`, `env_elements`), and
the lexical-environment operations they rely on.  Environment primitives that
live in langkit rather than in the analysed sources are modelled from the
spec and marked as such.
-/

/-- Ada identifiers are case-insensitive: symbols are interned on a
case-normalized form, and symbol equality is equality of that form. -/
def canonSym (s : String) : String := ⟨s.data.map Char.toLower⟩

/-- A single-token identifier node (`Identifier`): `tok` is the raw token
text; its interned symbol is `canonSym tok`. -/
structure Identifier where
  tok : String
deriving DecidableEq

/-- `SingleTokNode.matches`: whether this token node and the other one carry
the same interned symbol (`Self.name.symbol.equals(other.name.symbol)`). -/
def Identifier.matches (self other : Identifier) : Bool :=
  canonSym self.tok == canonSym other.tok

/-- `ParameterProfile`: one parameter group, introducing the identifiers
`ids`, which share one mode/type/default.  The matching properties inspect
only `ids` and the nullness of `default`, so the `is_aliased`, `mode` and
`type_expr` fields are not represented and `default` keeps just its nullness. -/
structure ParameterProfile where
  ids : List Identifier
  default : Option Unit
deriving DecidableEq

/-- `SingleParameter`: a couple (identifier, parameter profile). -/
structure SingleParameter where
  name : Identifier
  profile : ParameterProfile
deriving DecidableEq

/-- `ParamMatch`: for one `ParamAssoc`, whether it matched a formal of the
profile and whether that formal is optional (has a default value). -/
structure ParamMatch where
  has_matched : Bool
  is_formal_opt : Bool
deriving DecidableEq

/-- The designator of a `ParamAssoc`, when present: either an `Identifier`
node (on which `cast(Identifier)` succeeds) or a node of any other shape
(on which the cast fails). -/
inductive Designator where
  | ident (id : Identifier)
  | otherShape
deriving DecidableEq

/-- `ParamAssoc`: one actual argument, optionally carrying a named
designator.  Its `expr` field is never inspected by the matching properties
and is not represented. -/
structure ParamAssoc where
  designator : Option Designator
deriving DecidableEq

/-- `ParamList`: the actual argument list of a call. -/
structure ParamList where
  params : List ParamAssoc
deriving DecidableEq

/-- `SubprogramSpec`: a subprogram profile, an ordered list of parameter
groups.  Its `name` and `returns` fields are never inspected by the matching
properties and are not represented. -/
structure SubprogramSpec where
  params : List ParameterProfile
deriving DecidableEq

/-- `SubprogramSpec.typed_param_list`: collection of couples
(identifier, param profile) for all parameters
(`Self.params.mapcat(lambda profile: profile.ids.map(...))`). -/
def SubprogramSpec.typed_param_list (self : SubprogramSpec) : List SingleParameter :=
  self.params.flatMap (fun profile => profile.ids.map (fun id => ⟨id, profile⟩))

/-- `SubprogramSpec.nb_min_params`: the number of parameters with no default
value, i.e. the minimum number of actuals of a legal call. -/
def SubprogramSpec.nb_min_params (self : SubprogramSpec) : Nat :=
  (self.typed_param_list.filter (fun p => p.profile.default.isNone)).length

/-- `SubprogramSpec.nb_max_params`: the total number of parameters, i.e. the
maximum number of actuals of a legal call. -/
def SubprogramSpec.nb_max_params (self : SubprogramSpec) : Nat :=
  self.typed_param_list.length

/-- `SubprogramSpec.match_param_list`: for each `ParamAssoc` in a `ParamList`,
whether a matching formal was found in this `SubprogramSpec` and whether that
formal is optional.  A positional actual at index `i` matches the `i`-th
flattened formal when it exists (`typed_params.at(i)`); a named actual
matches when its designator is an `Identifier` with a matching formal
(`typed_params.find(...)`); anything else is `no_match`. -/
def SubprogramSpec.match_param_list (self : SubprogramSpec) (params : ParamList) :
    List ParamMatch :=
  let typed_params := self.typed_param_list
  let no_match : ParamMatch := ⟨false, false⟩
  params.params.mapIdx (fun i pa =>
    match pa.designator with
    | none =>
      match typed_params[i]? with
      | some single_param => ⟨true, single_param.profile.default.isSome⟩
      | none => no_match
    | some (.ident id) =>
      match typed_params.find? (fun p => p.name.matches id) with
      | some p => ⟨true, p.profile.default.isSome⟩
      | none => no_match
    | some .otherShape => no_match)

/-- `SubprogramSpec.is_matching_param_list`: whether a `ParamList` is a match
for this `SubprogramSpec` — every actual matched, the matched non-optional
count equals `nb_min_params`, and the actual count is at most
`nb_max_params`. -/
def SubprogramSpec.is_matching_param_list (self : SubprogramSpec) (params : ParamList) :
    Bool :=
  let match_list := self.match_param_list params
  match_list.all (fun m => m.has_matched)
    && (match_list.filter (fun m => !m.is_formal_opt)).length == self.nb_min_params
    && decide (params.params.length ≤ self.nb_max_params)

/-- `SubprogramSpec.match_param_assoc`, exactly as written in the source:
`(Self.nb_max_params > 0) & (Not(pa.designator.is_null)
| pa.designator.cast(Identifier).then(lambda id: ...))` — note the negation
on `pa.designator.is_null`. -/
def SubprogramSpec.match_param_assoc (self : SubprogramSpec) (pa : ParamAssoc) : Bool :=
  decide (0 < self.nb_max_params)
    && (!pa.designator.isNone
      || (match pa.designator with
          | some (.ident id) =>
            self.typed_param_list.any (fun p => p.name.matches id)
          | _ => false))

/-- Environment-entry metadata: how the entry was reached, not what it is. -/
structure Metadata where
  dottable_subprogram : Bool
  implicit_deref : Bool
deriving DecidableEq

mutual
/-- An entity registered in an environment.  Overload filtering inspects only
whether the entity is a `SubprogramSpec` (`e.el.cast(SubprogramSpec)`);
`parent_env` is the environment the entity exposes for further dotted access
(`el.parent_env`). -/
inductive Entity where
  | subprogramSpec (ss : SubprogramSpec) (parent_env : LexicalEnv)
  | otherDecl (parent_env : LexicalEnv)

/-- Modelled from the spec: the langkit lexical environment is not under the
analysed sources; per its contract it is a mapping from symbols to sets of
(node, metadata) entries plus an optional parent environment. -/
inductive LexicalEnv where
  | mk (entries : List (String × Entity × Metadata)) (parent : Option LexicalEnv)
end

/-- The environment an entity exposes for dotted access. -/
def Entity.parent_env : Entity → LexicalEnv
  | .subprogramSpec _ pe => pe
  | .otherDecl pe => pe

/-- An environment lookup result: the element `el` and its metadata `MD`. -/
structure EnvElement where
  el : Entity
  MD : Metadata

/-- Modelled from the spec: `lookup` returns the entries defined directly in
this environment only; symbols compare on their interned (case-normalized)
form. -/
def LexicalEnv.lookup : LexicalEnv → String → List EnvElement
  | .mk entries _, sym =>
    (entries.filter (fun ent => canonSym ent.1 == canonSym sym)).map
      (fun ent => ⟨ent.2.1, ent.2.2⟩)

/-- Modelled from the spec: `get` walks from this environment to the root and
returns the full entry set at the first level where the symbol is found; an
exhausted chain yields the empty set, not an error. -/
def LexicalEnv.get : LexicalEnv → String → List EnvElement
  | .mk entries none, sym => LexicalEnv.lookup (.mk entries none) sym
  | .mk entries (some p), sym =>
    match LexicalEnv.lookup (.mk entries (some p)) sym with
    | [] => p.get sym
    | x :: xs => x :: xs

/-- The failures of the single-answer lookup API. -/
inductive NameError where
  | UnboundNameError
  | AmbiguousNameError
deriving DecidableEq

/-- Modelled from the spec: `resolve_unique` walks upward and returns the
single entry of the first non-empty level; more than one entry there is an
`AmbiguousNameError`, an exhausted chain an `UnboundNameError`. -/
def LexicalEnv.resolve_unique (env : LexicalEnv) (sym : String) :
    Except NameError EnvElement :=
  match env.get sym with
  | [] => .error .UnboundNameError
  | [x] => .ok x
  | _ :: _ :: _ => .error .AmbiguousNameError

/-- True when `sym` is bound in no environment on the chain from `env` to the
root. -/
def LexicalEnv.is_unbound_on_chain : LexicalEnv → String → Bool
  | .mk entries parent, sym =>
    (LexicalEnv.lookup (.mk entries parent) sym).isEmpty
      && (match parent with
          | none => true
          | some p => p.is_unbound_on_chain sym)

/-- `BaseId.env_elements`: `has_callexpr` is the node's computed
call-position flag, `tok` its token.  In call position the lookup set is
returned unfiltered (the enclosing call expression will do its own
filtering); otherwise the entries that would only be valid with a call
expression are filtered out. -/
def BaseId.env_elements (env : LexicalEnv) (has_callexpr : Bool) (tok : String) :
    List EnvElement :=
  if has_callexpr then
    env.get tok
  else
    (env.get tok).filter (fun e =>
      match e.el with
      | .subprogramSpec ss _ =>
        (e.MD.dottable_subprogram && ss.nb_min_params == 1)
          || ss.nb_min_params == 0
      | .otherDecl _ => true)

/-- The name-expression shapes the resolution claims need: a `BaseId` leaf
(carrying its token and its computed `has_callexpr` flag) or a `Prefix` node
(fields `prefix` and `suffix` in the source; the constructor is named
`dotted` here, with the prefix field named `pfx`). -/
inductive NameExpr where
  | baseId (tok : String) (has_callexpr : Bool)
  | dotted (pfx : NameExpr) (suffix : NameExpr)

/-- `name`: `BaseId.name` is `Self.tok`; `Prefix.name` is `Self.suffix.name`
(the rightmost segment). -/
def NameExpr.name : NameExpr → String
  | .baseId tok _ => tok
  | .dotted _ suffix => suffix.name

/-- `designated_env`: for a `BaseId`,
`Env.resolve_unique(Self.tok).el.parent_env`; for a `Prefix`,
`Self.prefix.designated_env.eval_in_env(Self.suffix.designated_env)`.
Modelled from the spec for `eval_in_env`, the langkit primitive that
re-roots evaluation of the dependent property: it is `Except.bind`, the
suffix property evaluated with lookup rooted in the prefix's designated
environment, failures propagating. -/
def NameExpr.designated_env : NameExpr → LexicalEnv → Except NameError LexicalEnv
  | .baseId tok _, env => (env.resolve_unique tok).map (fun e => e.el.parent_env)
  | .dotted pfx suffix, env =>
    (pfx.designated_env env).bind (fun denv => suffix.designated_env denv)

/-- `scope`: for a `BaseId`, the current environment `Env`; for a `Prefix`,
`Self.prefix.designated_env`. -/
def NameExpr.scope : NameExpr → LexicalEnv → Except NameError LexicalEnv
  | .baseId _ _, env => .ok env
  | .dotted pfx _, env => pfx.designated_env env

/-- `env_elements`: for a `BaseId`, the filtered lookup described by
`BaseId.env_elements`; for a `Prefix`,
`Self.prefix.designated_env.eval_in_env(Self.suffix.env_elements)`
(`eval_in_env` modelled as in `NameExpr.designated_env`). -/
def NameExpr.env_elements : NameExpr → LexicalEnv → Except NameError (List EnvElement)
  | .baseId tok hc, env => .ok (BaseId.env_elements env hc tok)
  | .dotted pfx suffix, env =>
    (pfx.designated_env env).bind (fun denv => suffix.env_elements denv)

/-- Modelled from the spec: drop the receiver — the first flattened formal —
from a parameter-group list. -/
def dropReceiver : List ParameterProfile → List ParameterProfile
  | [] => []
  | pr :: rest =>
    if pr.ids.length ≤ 1 then rest else { pr with ids := pr.ids.tail } :: rest

/-- Modelled from the spec: the call-node overload-matching pass is absent
from the analysed sources (no node overrides the abstract `env_elements`
with call matching).  Per the spec, a candidate reached through dot-notation
(`dottable_subprogram` metadata) has the receiver implicitly bound to its
first formal: the explicit actuals are matched against the remaining
formals, and the required-count and arity tests are made against
`nb_min_params - 1` and `nb_max_params - 1` instead of `nb_min_params` and
`nb_max_params`. -/
def SubprogramSpec.is_matching_dottable_call (self : SubprogramSpec) (md : Metadata)
    (params : ParamList) : Bool :=
  if md.dottable_subprogram then
    let rest : SubprogramSpec := ⟨dropReceiver self.params⟩
    let match_list := rest.match_param_list params
    match_list.all (fun m => m.has_matched)
      && (match_list.filter (fun m => !m.is_formal_opt)).length == self.nb_min_params - 1
      && decide (params.params.length ≤ self.nb_max_params - 1)
  else
    self.is_matching_param_list params

/-- One overload-matching query: which matching property is applied to which
(profile, arguments) pair. -/
inductive MatchQuery where
  | assoc (spec : SubprogramSpec) (pa : ParamAssoc)
  | plist (spec : SubprogramSpec) (params : ParamList)
  | matching (spec : SubprogramSpec) (params : ParamList)
deriving DecidableEq

/-- The answer of one overload-matching query. -/
inductive MatchAnswer where
  | bool (b : Bool)
  | matches (ms : List ParamMatch)
deriving DecidableEq

/-- Evaluate one query: the answer is a function of the (profile, arguments)
pair carried by the query alone. -/
def evalMatchQuery : MatchQuery → MatchAnswer
  | .assoc spec pa => .bool (spec.match_param_assoc pa)
  | .plist spec params => .matches (spec.match_param_list params)
  | .matching spec params => .bool (spec.is_matching_param_list params)

/-- Run a sequence of matching queries in order. -/
def runMatchQueries (qs : List MatchQuery) : List MatchAnswer :=
  qs.map evalMatchQuery

/-- A profile with a single required parameter `X`. -/
def specX : SubprogramSpec := ⟨[⟨[⟨"X"⟩], none⟩]⟩

/-- The dottable-call profile of the spec's example: `(Self: T; N: Integer)`,
both parameters required. -/
def specSelfN : SubprogramSpec := ⟨[⟨[⟨"Self"⟩], none⟩, ⟨[⟨"N"⟩], none⟩]⟩

/-- A positional association (no designator). -/
def paPositional : ParamAssoc := ⟨none⟩

/-- An association whose designator is not an identifier. -/
def paOtherShape : ParamAssoc := ⟨some .otherShape⟩

/-- The one-positional-actual call list of the spec's `Obj.Foo(5)` example. -/
def callOneActual : ParamList := ⟨[⟨none⟩]⟩

/-- Metadata of an entry reached through dot-notation. -/
def mdDottable : Metadata := ⟨true, false⟩

/-- C1: the claim states that `match_param_assoc` accepts any undesignated
(positional) association against a non-empty profile and rejects designators
that are not matching identifiers — which is also what the source's own
comments state.  The code instead computes `Not(pa.designator.is_null)`, so
on the one-required-parameter profile `specX` a positional association is
rejected while a non-identifier designator is accepted. -/
theorem match_param_assoc_positional_divergence :
    0 < specX.nb_max_params
      ∧ specX.match_param_assoc paPositional = false
      ∧ specX.match_param_assoc paOtherShape = true := by
  refine ⟨by decide, rfl, rfl⟩

/-- C2: `is_matching_param_list` holds exactly when every element of
`match_param_list` has `has_matched`, the number of elements with
`is_formal_opt` false equals `nb_min_params`, and the actual count is at
most `nb_max_params`. -/
theorem is_matching_param_list_iff (spec : SubprogramSpec) (params : ParamList) :
    spec.is_matching_param_list params = true ↔
      ((∀ m ∈ spec.match_param_list params, m.has_matched = true)
        ∧ (spec.match_param_list params).countP (fun m => !m.is_formal_opt)
            = spec.nb_min_params
        ∧ params.params.length ≤ spec.nb_max_params) := by
  unfold SubprogramSpec.is_matching_param_list
  simp [List.all_eq_true, List.countP_eq_length_filter, and_assoc]

/-- C7: `typed_param_list` is the in-order flattening of the parameter groups
into one (identifier, profile) pair per declared identifier (its length is
the sum of the group sizes); `nb_min_params` counts the flattened entries
with no default; `nb_max_params` is the total flattened count. -/
theorem typed_param_list_flattening (spec : SubprogramSpec) :
    spec.typed_param_list
        = spec.params.flatMap (fun profile => profile.ids.map fun id => ⟨id, profile⟩)
      ∧ spec.nb_min_params
          = spec.typed_param_list.countP (fun p => p.profile.default.isNone)
      ∧ spec.nb_max_params = spec.typed_param_list.length
      ∧ spec.nb_max_params = (spec.params.map (fun profile => profile.ids.length)).sum := by
  refine ⟨rfl, (List.countP_eq_length_filter _ _).symm, rfl, ?_⟩
  unfold SubprogramSpec.nb_max_params SubprogramSpec.typed_param_list
  simp [List.length_flatMap, Function.comp_def]

/-- C9: matching is deterministic and stateless — in any sequence of matching
queries, the answer at a query's position is the pure evaluation of that
query alone, whatever queries come before or after, and running the sequence
is elementwise evaluation. -/
theorem match_queries_stateless (pre post : List MatchQuery) (q : MatchQuery) :
    (runMatchQueries (pre ++ q :: post))[pre.length]? = some (evalMatchQuery q)
      ∧ runMatchQueries (pre ++ q :: post)
          = runMatchQueries pre ++ evalMatchQuery q :: runMatchQueries post := by
  constructor
  · unfold runMatchQueries
    rw [List.map_append, List.getElem?_append_right (by simp)]
    simp
  · unfold runMatchQueries
    simp

/-- C10: `match_param_list` returns one `ParamMatch` per actual, in order:
its length is the number of actuals, and the `i`-th result depends only on
the `i`-th actual (two argument lists agreeing at position `i` get the same
`i`-th result), whether or not anything matched. -/
theorem match_param_list_pointwise (spec : SubprogramSpec) (params1 params2 : ParamList)
    (i : Nat) (h : params1.params[i]? = params2.params[i]?) :
    (spec.match_param_list params1).length = params1.params.length
      ∧ (spec.match_param_list params2).length = params2.params.length
      ∧ (spec.match_param_list params1)[i]? = (spec.match_param_list params2)[i]? := by
  unfold SubprogramSpec.match_param_list
  refine ⟨List.length_mapIdx, List.length_mapIdx, ?_⟩
  rw [List.getElem?_mapIdx, List.getElem?_mapIdx, h]

/-- Witness for C10 at concrete inputs: two argument lists sharing their
first actual get the same first result. -/
theorem match_param_list_pointwise_witness :
    (specX.match_param_list ⟨[paPositional]⟩).length = 1
      ∧ (specX.match_param_list ⟨[paPositional, paOtherShape]⟩).length = 2
      ∧ (specX.match_param_list ⟨[paPositional]⟩)[0]?
          = (specX.match_param_list ⟨[paPositional, paOtherShape]⟩)[0]? :=
  match_param_list_pointwise specX ⟨[paPositional]⟩ ⟨[paPositional, paOtherShape]⟩ 0 rfl

/-- C5: on the spec's dottable example — profile `(Self: T; N: Integer)`
(two required parameters) reached with `dottable_subprogram` metadata — the
call `Obj.Foo(5)` (one explicit actual) is judged a match, the matched
non-optional count being tested against `nb_min_params - 1`; the unadjusted
test against `nb_min_params` would reject it. -/
theorem dottable_call_required_count :
    specSelfN.nb_min_params = 2
      ∧ specSelfN.is_matching_dottable_call mdDottable callOneActual = true
      ∧ ((⟨dropReceiver specSelfN.params⟩ : SubprogramSpec).match_param_list callOneActual
          |>.filter (fun m => !m.is_formal_opt)).length = specSelfN.nb_min_params - 1
      ∧ specSelfN.is_matching_param_list callOneActual = false := by
  refine ⟨rfl, rfl, rfl, rfl⟩

/-- C3: for a bare identifier, `env_elements` with `has_callexpr` true is the
unfiltered lookup set; with `has_callexpr` false it keeps exactly the
candidates that are not `SubprogramSpec` entries, or have `nb_min_params`
zero, or carry `dottable_subprogram` metadata with `nb_min_params` one. -/
theorem baseId_env_elements_filtering (env : LexicalEnv) (tok : String) :
    BaseId.env_elements env true tok = env.get tok
      ∧ ∀ e, e ∈ BaseId.env_elements env false tok ↔
          (e ∈ env.get tok
            ∧ ((∃ pe, e.el = .otherDecl pe)
              ∨ (∃ ss pe, e.el = .subprogramSpec ss pe ∧ ss.nb_min_params = 0)
              ∨ (∃ ss pe, e.el = .subprogramSpec ss pe
                  ∧ e.MD.dottable_subprogram = true ∧ ss.nb_min_params = 1))) := by
  constructor
  · rfl
  · intro e
    have hrw : BaseId.env_elements env false tok
        = (env.get tok).filter (fun e =>
            match e.el with
            | .subprogramSpec ss _ =>
              (e.MD.dottable_subprogram && ss.nb_min_params == 1)
                || ss.nb_min_params == 0
            | .otherDecl _ => true) := rfl
    rw [hrw, List.mem_filter]
    refine and_congr_right fun _ => ?_
    rcases e with ⟨el, md⟩
    rcases el with ⟨ss, pe⟩ | pe
    · simp only [Bool.or_eq_true, Bool.and_eq_true, beq_iff_eq]
      constructor
      · rintro (⟨hd, hmin⟩ | hmin)
        · exact Or.inr (Or.inr ⟨ss, pe, rfl, hd, hmin⟩)
        · exact Or.inr (Or.inl ⟨ss, pe, rfl, hmin⟩)
      · rintro (⟨pe1, hpe⟩ | ⟨ss1, pe1, heq, hmin⟩ | ⟨ss1, pe1, heq, hd, hmin⟩)
        · exact Entity.noConfusion hpe
        · injection heq with h1 h2
          subst h1
          exact Or.inr hmin
        · injection heq with h1 h2
          subst h1
          exact Or.inl ⟨hd, hmin⟩
    · simp only [true_iff]
      exact Or.inl ⟨pe, rfl⟩

/-- C4: for a dotted name `prefix.suffix` whose prefix designates an
environment, `env_elements` is the suffix's `env_elements` evaluated with
lookup re-rooted in that designated environment, `scope` is that designated
environment, and `name` is the suffix's `name` (the rightmost segment). -/
theorem dotted_name_chaining (env denv : LexicalEnv) (pfx sfx : NameExpr)
    (h : pfx.designated_env env = .ok denv) :
    (NameExpr.dotted pfx sfx).env_elements env = sfx.env_elements denv
      ∧ (NameExpr.dotted pfx sfx).scope env = .ok denv
      ∧ (NameExpr.dotted pfx sfx).name = sfx.name := by
  refine ⟨?_, h, rfl⟩
  show (pfx.designated_env env).bind (fun denv => sfx.env_elements denv)
      = sfx.env_elements denv
  rw [h]
  rfl

/-- An environment holding the entity `c` designates. -/
def envInner : LexicalEnv := .mk [("c", .otherDecl (.mk [] none), ⟨false, false⟩)] none

/-- A root environment binding `p` to an entity whose designated environment
is `envInner`. -/
def envOuter : LexicalEnv := .mk [("p", .otherDecl envInner, ⟨false, false⟩)] none

/-- Witness for C4 on a concrete two-level environment. -/
theorem dotted_name_chaining_witness :
    (NameExpr.dotted (.baseId "p" false) (.baseId "c" true)).env_elements envOuter
        = (NameExpr.baseId "c" true).env_elements envInner
      ∧ (NameExpr.dotted (.baseId "p" false) (.baseId "c" true)).scope envOuter
          = .ok envInner
      ∧ (NameExpr.dotted (.baseId "p" false) (.baseId "c" true)).name
          = (NameExpr.baseId "c" true).name :=
  dotted_name_chaining envOuter envInner (.baseId "p" false) (.baseId "c" true) rfl

/-- Proof helper: the per-association result computed by
`SubprogramSpec.match_param_list` at index `i`. -/
def matchOne (spec : SubprogramSpec) (i : Nat) (pa : ParamAssoc) : ParamMatch :=
  match pa.designator with
  | none =>
    match spec.typed_param_list[i]? with
    | some single_param => ⟨true, single_param.profile.default.isSome⟩
    | none => ⟨false, false⟩
  | some (.ident id) =>
    match spec.typed_param_list.find? (fun p => p.name.matches id) with
    | some p => ⟨true, p.profile.default.isSome⟩
    | none => ⟨false, false⟩
  | some .otherShape => ⟨false, false⟩

/-- Proof helper: `match_param_list` is the indexed map of `matchOne`. -/
theorem match_param_list_eq_mapIdx (spec : SubprogramSpec) (params : ParamList) :
    spec.match_param_list params = params.params.mapIdx (matchOne spec) := rfl

/-- C6: the `i`-th result of `match_param_list` describes the `i`-th actual —
a positional actual matches exactly when `i < nb_max_params`, with
optionality that of the `i`-th flattened formal; an identifier-designated
actual matches exactly when some formal matches case-insensitively, with
optionality that of the first such formal; any other designator shape does
not match. -/
theorem match_param_list_elem_spec (spec : SubprogramSpec) (params : ParamList)
    (i : Nat) (pa : ParamAssoc) (h : params.params[i]? = some pa) :
    ∃ m, (spec.match_param_list params)[i]? = some m
      ∧ (pa.designator = none →
          ((m.has_matched = true ↔ i < spec.nb_max_params)
            ∧ (m.is_formal_opt = true ↔
                ∃ p, spec.typed_param_list[i]? = some p ∧ p.profile.default.isSome = true)))
      ∧ (∀ id, pa.designator = some (.ident id) →
          ((m.has_matched = true ↔
              ∃ p ∈ spec.typed_param_list, p.name.matches id = true)
            ∧ ∀ p, spec.typed_param_list.find? (fun q => q.name.matches id) = some p →
                m.is_formal_opt = p.profile.default.isSome))
      ∧ (pa.designator = some .otherShape → m.has_matched = false) := by
  have hmap : (spec.match_param_list params)[i]? = some (matchOne spec i pa) := by
    rw [match_param_list_eq_mapIdx, List.getElem?_mapIdx, h, Option.map_some']
  refine ⟨matchOne spec i pa, hmap, ?_, ?_, ?_⟩
  · intro hdes
    rcases hat : spec.typed_param_list[i]? with _ | sp
    · have hlen : spec.typed_param_list.length ≤ i := List.getElem?_eq_none_iff.mp hat
      constructor
      · simp only [matchOne, hdes, hat, SubprogramSpec.nb_max_params]
        constructor
        · intro hc
          exact absurd hc (by simp)
        · intro hlt
          omega
      · simp [matchOne, hdes, hat]
    · have hlt : i < spec.typed_param_list.length :=
        (List.getElem?_eq_some.mp hat).1
      constructor
      · simp only [matchOne, hdes, hat, SubprogramSpec.nb_max_params]
        simpa using hlt
      · simp [matchOne, hdes, hat]
  · intro id hdes
    rcases hfind : spec.typed_param_list.find? (fun q => q.name.matches id) with _ | p
    · have hnone := List.find?_eq_none.mp hfind
      constructor
      · simp only [matchOne, hdes, hfind]
        constructor
        · intro hc
          exact absurd hc (by simp)
        · rintro ⟨p, hp, hmatch⟩
          exact absurd hmatch (hnone p hp)
      · intro p hp
        rw [hfind] at hp
        exact Option.noConfusion hp
    · constructor
      · simp only [matchOne, hdes, hfind, true_iff]
        exact ⟨p, List.mem_of_find?_eq_some hfind, by simpa using List.find?_some hfind⟩
      · intro p1 hp1
        rw [hfind] at hp1
        injection hp1 with hpe
        subst hpe
        simp [matchOne, hdes, hfind]
  · intro hdes
    simp [matchOne, hdes]

/-- Witness for C6 at a concrete positional association. -/
theorem match_param_list_elem_spec_witness :
    ∃ m, (specX.match_param_list ⟨[paPositional]⟩)[0]? = some m
      ∧ (paPositional.designator = none →
          ((m.has_matched = true ↔ 0 < specX.nb_max_params)
            ∧ (m.is_formal_opt = true ↔
                ∃ p, specX.typed_param_list[0]? = some p ∧ p.profile.default.isSome = true)))
      ∧ (∀ id, paPositional.designator = some (.ident id) →
          ((m.has_matched = true ↔
              ∃ p ∈ specX.typed_param_list, p.name.matches id = true)
            ∧ ∀ p, specX.typed_param_list.find? (fun q => q.name.matches id) = some p →
                m.is_formal_opt = p.profile.default.isSome))
      ∧ (paPositional.designator = some .otherShape → m.has_matched = false) :=
  match_param_list_elem_spec specX ⟨[paPositional]⟩ 0 paPositional rfl

/-- Proof helper: a symbol unbound on the whole chain yields an empty `get`. -/
theorem get_eq_nil_of_unbound :
    ∀ (env : LexicalEnv) (sym : String),
      env.is_unbound_on_chain sym = true → env.get sym = []
  | .mk entries none, sym, h => by
    unfold LexicalEnv.is_unbound_on_chain at h
    simp only [Bool.and_eq_true] at h
    unfold LexicalEnv.get
    exact List.isEmpty_iff.mp h.1
  | .mk entries (some p), sym, h => by
    unfold LexicalEnv.is_unbound_on_chain at h
    simp only [Bool.and_eq_true] at h
    have h1 := List.isEmpty_iff.mp h.1
    have h2 := get_eq_nil_of_unbound p sym h.2
    unfold LexicalEnv.get
    rw [h1]
    exact h2

/-- C8: for a bare identifier whose symbol is bound in no environment on the
chain up to the root, the set-valued `env_elements` returns the empty set
without failing, while the single-answer `resolve_unique` surfaces
`UnboundNameError`. -/
theorem unbound_env_elements_empty (env : LexicalEnv) (tok : String) (hc : Bool)
    (h : env.is_unbound_on_chain tok = true) :
    (NameExpr.baseId tok hc).env_elements env = .ok []
      ∧ env.resolve_unique tok = .error .UnboundNameError := by
  have hg := get_eq_nil_of_unbound env tok h
  constructor
  · show Except.ok (BaseId.env_elements env hc tok) = Except.ok []
    unfold BaseId.env_elements
    rw [hg]
    cases hc <;> simp
  · unfold LexicalEnv.resolve_unique
    rw [hg]

/-- An empty root environment. -/
def envEmpty : LexicalEnv := .mk [] none

/-- Witness for C8: an unbound symbol in the empty root environment. -/
theorem unbound_env_elements_empty_witness :
    (NameExpr.baseId "x" false).env_elements envEmpty = .ok []
      ∧ envEmpty.resolve_unique "x" = .error .UnboundNameError :=
  unbound_env_elements_empty envEmpty "x" false rfl
